import Mathlib

/-
Verification of the diffpy.srfit equation-visitor core: the Literal node
model, the Printer visitor (diffpy/srfit/equation/visitors/printer.py) and
the ArgFinder visitor (diffpy/srfit/equation/visitors/argfinder.py).

The two visitors are embedded by explicit state passing: the Printer's
mutable `self.output` string and the ArgFinder's mutable `self.args` list
become explicit arguments threaded through the traversal.  Python method
return values are modelled separately from the visitor state, because
`Printer.onOperator` returns `None` (a bare `return`) on its infix path
while returning `self.output` elsewhere; a Python `None` return is an
`Option.none`.  An IndexError raised by an out-of-range child access in
`Printer._onInfix` is an `Except.error` carrying the output accumulated up
to the moment of the raise.
-/

namespace DiffpySrfit

/-- Modelled from the spec: the node model.  The `Argument`/`Operator`
literal classes and their `identify` double dispatch live in
`diffpy/srfit/equation/literals/`, which is not among the disclosed source
files; the spec describes an `Argument` as a leaf holding an optional name,
a numeric scalar value and a const flag, and an `Operator` as an internal
node holding a display name, a symbol, an arity `nin` and an ordered list
of children (`args`).  The numeric value is modelled as `Int` (its exact
Python string formatting is outside the claims); the construction layer
registers a string symbol on every operator, so `symbol` is a `String`.
Each node's `identify(visitor)` dispatches to `visitor.onArgument` or
`visitor.onOperator`, passing the node; the visitor embeddings below
perform that dispatch by matching on the node kind. -/
inductive Literal where
  | Argument (name : Option String) (value : Int) (const : Bool)
  | Operator (name : String) (symbol : String) (nin : Nat) (args : List Literal)

/-- Printer.reset (printer.py lines 38-41): sets `self.output = ""`,
discarding whatever was accumulated. -/
def Printer.reset (_ : String) : String := ""

mutual

/-- Dispatch of `literal.identify(printer)` combined with
Printer.onArgument (printer.py lines 43-53).  On an Argument:
`self.output += str(arg.value)` when `arg.name is None`, otherwise
`self.output += str(arg.name)`; then `return self.output`.  The result pairs
the new output state with the Python return value. -/
def Printer.identify (out : String) : Literal → Except String (String × Option String)
  | .Argument name value _ =>
      let out2 := match name with
        | none => out ++ toString value
        | some n => out ++ n
      .ok (out2, some out2)
  | .Operator name symbol nin args => Printer.onOperator out name symbol nin args
termination_by l => (sizeOf l, 0)

/-- Printer.onOperator (printer.py lines 55-69).  When
`op.name != op.symbol and op.nin == 2` it calls `self._onInfix(op)` and then
executes a bare `return`, so its Python return value is `None`; otherwise it
appends `str(op.name) + "("`, loops over `op.args` prepending `", "` before
every child but the first, appends `")"` and returns `self.output`. -/
def Printer.onOperator (out : String) (name symbol : String) (nin : Nat)
    (args : List Literal) : Except String (String × Option String) :=
  if name ≠ symbol ∧ nin = 2 then
    match Printer.onInfix out symbol args with
    | .ok out2 => .ok (out2, none)
    | .error e => .error e
  else
    match Printer.identifyList (out ++ name ++ "(") true args with
    | .ok out3 => .ok (out3 ++ ")", some (out3 ++ ")"))
    | .error e => .error e
termination_by (sizeOf args, 2)

/-- The `for idx, literal in enumerate(op.args)` loop of Printer.onOperator
(printer.py lines 64-66): `if idx != 0: self.output += ", "` then
`literal.identify(self)`, whose return value the loop discards. -/
def Printer.identifyList (out : String) (first : Bool) :
    List Literal → Except String String
  | [] => .ok out
  | l :: rest =>
    match Printer.identify (if first then out else out ++ ", ") l with
    | .ok (out3, _) => Printer.identifyList out3 false rest
    | .error e => .error e
termination_by ls => (sizeOf ls, 1)

/-- Printer._onInfix (printer.py lines 71-79): appends `"("`, renders
`op.args[0]`, appends `" %s " % op.symbol`, renders `op.args[1]`, appends
`")"`; its Python return value is `None` (callers read `self.output`).  An
out-of-range access `op.args[0]` or `op.args[1]` raises IndexError, modelled
as `Except.error` carrying the output accumulated so far.  Children past
index 1 are never visited. -/
def Printer.onInfix (out : String) (symbol : String) (args : List Literal) :
    Except String String :=
  match args with
  | [] => .error (out ++ "(")
  | [a0] =>
    match Printer.identify (out ++ "(") a0 with
    | .error e => .error e
    | .ok (out2, _) => .error (out2 ++ " " ++ symbol ++ " ")
  | a0 :: a1 :: _ =>
    match Printer.identify (out ++ "(") a0 with
    | .error e => .error e
    | .ok (out2, _) =>
      match Printer.identify (out2 ++ " " ++ symbol ++ " ") a1 with
      | .error e => .error e
      | .ok (out3, _) => .ok (out3 ++ ")")
termination_by (sizeOf args, 1)

end

/-- A full render: a fresh Printer (whose `__init__` calls `reset`, so
`output` starts as `""`), `root.identify(printer)`, then a read of
`printer.output`. -/
def Printer.render (l : Literal) : Except String String :=
  match Printer.identify "" l with
  | .ok (o, _) => .ok o
  | .error e => .error e

/-- ArgFinder.reset (argfinder.py lines 46-49): sets `self.args = []`. -/
def ArgFinder.reset (_ : List Literal) : List Literal := []

mutual

/-- Dispatch of `literal.identify(argfinder)` combined with
ArgFinder.onArgument (argfinder.py lines 51-55): appends the argument to
`self.args` when `self.getconsts or not arg.const`, then returns
`self.args`; ArgFinder.onOperator (lines 57-61) loops
`for arg in op.args: arg.identify(self)` and returns `self.args`.  The
result pairs the new `args` state with the Python return value (which is
`self.args` in both methods). -/
def ArgFinder.identify (getconsts : Bool) (args : List Literal) :
    Literal → List Literal × List Literal
  | .Argument name value const =>
      let args2 := if getconsts || !const then args ++ [.Argument name value const] else args
      (args2, args2)
  | .Operator _ _ _ children =>
      let args2 := ArgFinder.identifyList getconsts args children
      (args2, args2)
termination_by l => (sizeOf l, 0)

/-- The `for arg in op.args: arg.identify(self)` loop of
ArgFinder.onOperator; each child's return value is discarded. -/
def ArgFinder.identifyList (getconsts : Bool) (args : List Literal) :
    List Literal → List Literal
  | [] => args
  | l :: rest => ArgFinder.identifyList getconsts (ArgFinder.identify getconsts args l).1 rest
termination_by ls => (sizeOf ls, 1)

end

/-- A full find: a fresh ArgFinder (whose `__init__` sets `self.args = []`
and stores `getconsts`), `root.identify(finder)`, then a read of
`finder.args`. -/
def ArgFinder.find (getconsts : Bool) (l : Literal) : List Literal :=
  (ArgFinder.identify getconsts [] l).1

/-- The const flag of an Argument leaf (an Operator has none). -/
def Literal.isConst : Literal → Bool
  | .Argument _ _ c => c
  | .Operator _ _ _ _ => false

mutual

/-- Specification-side enumeration: the Argument-leaf occurrences reachable
from a node, depth first, left to right, one entry per occurrence. -/
def argOccurrences : Literal → List Literal
  | .Argument name value const => [.Argument name value const]
  | .Operator _ _ _ args => argOccurrencesList args
termination_by l => (sizeOf l, 0)

/-- Argument-leaf occurrences of a child list, in child order. -/
def argOccurrencesList : List Literal → List Literal
  | [] => []
  | l :: rest => argOccurrences l ++ argOccurrencesList rest
termination_by ls => (sizeOf ls, 1)

end

mutual

/-- Specification-side well-formedness: every operator's declared arity
`nin` equals its actual child count (the §3 invariant
`len(children) == arity`). -/
def wellFormed : Literal → Bool
  | .Argument _ _ _ => true
  | .Operator _ _ nin args => (args.length == nin) && wellFormedList args
termination_by l => (sizeOf l, 0)

/-- Well-formedness of every node of a child list. -/
def wellFormedList : List Literal → Bool
  | [] => true
  | l :: rest => wellFormed l && wellFormedList rest
termination_by ls => (sizeOf ls, 1)

end

/-- Specification-side comma join: the pieces joined by `", "`. -/
def commaJoin : List String → String
  | [] => ""
  | [r] => r
  | r :: rs => r ++ ", " ++ commaJoin rs

/-- Specification-side helper: `", "` prepended to every piece. -/
def commaJoinTail : List String → String
  | [] => ""
  | r :: rs => ", " ++ r ++ commaJoinTail rs

/-- Shift a Printer traversal result by an output-state front piece `p`:
the output grows by `p` on the left, and so do the returned string (when
the return value is not `None`) and the output captured at an IndexError. -/
def shiftRes (p : String) : Except String (String × Option String) → Except String (String × Option String)
  | .ok (s, v) => .ok (p ++ s, v.map (fun t => p ++ t))
  | .error e => .error (p ++ e)

/-- Shift a child-loop or infix traversal result by a front piece `p`. -/
def shiftStr (p : String) : Except String String → Except String String
  | .ok s => .ok (p ++ s)
  | .error e => .error (p ++ e)

mutual

/-- The Printer traversal with the node graph threaded through as part of
the mutable state: the second component is the node as it stands after the
visit.  Every field of the result node comes from a read of the input node
(printer.py contains no assignment to any node attribute), so the node
after the visit is rebuilt solely from the node before it. -/
def PrinterT.identify (out : String) :
    Literal → Except String (String × Option String) × Literal
  | .Argument name value const =>
      let out2 := match name with
        | none => out ++ toString value
        | some n => out ++ n
      (.ok (out2, some out2), .Argument name value const)
  | .Operator name symbol nin args =>
      let r := PrinterT.onOperator out name symbol nin args
      (r.1, .Operator name symbol nin r.2)
termination_by l => (sizeOf l, 0)

/-- Printer.onOperator with the child list threaded through. -/
def PrinterT.onOperator (out : String) (name symbol : String) (nin : Nat)
    (args : List Literal) : Except String (String × Option String) × List Literal :=
  if name ≠ symbol ∧ nin = 2 then
    match PrinterT.onInfix out symbol args with
    | (.ok out2, args2) => (.ok (out2, none), args2)
    | (.error e, args2) => (.error e, args2)
  else
    match PrinterT.identifyList (out ++ name ++ "(") true args with
    | (.ok out3, args2) => (.ok (out3 ++ ")", some (out3 ++ ")")), args2)
    | (.error e, args2) => (.error e, args2)
termination_by (sizeOf args, 2)

/-- The Printer.onOperator child loop with the children threaded through;
children after a raised IndexError stand as they were. -/
def PrinterT.identifyList (out : String) (first : Bool) :
    List Literal → Except String String × List Literal
  | [] => (.ok out, [])
  | l :: rest =>
    match PrinterT.identify (if first then out else out ++ ", ") l with
    | (.ok (out3, _), l2) =>
      match PrinterT.identifyList out3 false rest with
      | (r, rest2) => (r, l2 :: rest2)
    | (.error e, l2) => (.error e, l2 :: rest)
termination_by ls => (sizeOf ls, 1)

/-- Printer._onInfix with the children threaded through. -/
def PrinterT.onInfix (out : String) (symbol : String) (args : List Literal) :
    Except String String × List Literal :=
  match args with
  | [] => (.error (out ++ "("), [])
  | [a0] =>
    match PrinterT.identify (out ++ "(") a0 with
    | (.error e, a0') => (.error e, [a0'])
    | (.ok (out2, _), a0') => (.error (out2 ++ " " ++ symbol ++ " "), [a0'])
  | a0 :: a1 :: tail =>
    match PrinterT.identify (out ++ "(") a0 with
    | (.error e, a0') => (.error e, a0' :: a1 :: tail)
    | (.ok (out2, _), a0') =>
      match PrinterT.identify (out2 ++ " " ++ symbol ++ " ") a1 with
      | (.error e, a1') => (.error e, a0' :: a1' :: tail)
      | (.ok (out3, _), a1') => (.ok (out3 ++ ")"), a0' :: a1' :: tail)
termination_by (sizeOf args, 1)

end

mutual

/-- The ArgFinder traversal with the node graph threaded through as part of
the mutable state: the second component is the node as it stands after the
visit (argfinder.py contains no assignment to any node attribute). -/
def ArgFinderT.identify (getconsts : Bool) (args : List Literal) :
    Literal → (List Literal × List Literal) × Literal
  | .Argument name value const =>
      let args2 := if getconsts || !const then args ++ [.Argument name value const] else args
      ((args2, args2), .Argument name value const)
  | .Operator name symbol nin children =>
      let r := ArgFinderT.identifyList getconsts args children
      ((r.1, r.1), .Operator name symbol nin r.2)
termination_by l => (sizeOf l, 0)

/-- The ArgFinder.onOperator child loop with the children threaded through. -/
def ArgFinderT.identifyList (getconsts : Bool) (args : List Literal) :
    List Literal → List Literal × List Literal
  | [] => (args, [])
  | l :: rest =>
    match ArgFinderT.identify getconsts args l with
    | (r1, l2) =>
      match ArgFinderT.identifyList getconsts r1.1 rest with
      | (r2, rest2) => (r2, l2 :: rest2)
termination_by ls => (sizeOf ls, 1)

end

/-- The Printer only appends to `self.output`: running any traversal step
from a state with front piece `p` prepended yields the same result with `p`
prepended to the output, to the returned string and to the output captured
at an IndexError. -/
theorem Printer.identify_shift (out : String) (l : Literal) :
    ∀ p, Printer.identify (p ++ out) l = shiftRes p (Printer.identify out l) := by
  refine Printer.identify.induct
    (fun out l => ∀ p,
      Printer.identify (p ++ out) l = shiftRes p (Printer.identify out l))
    (fun out name symbol nin args => ∀ p,
      Printer.onOperator (p ++ out) name symbol nin args =
        shiftRes p (Printer.onOperator out name symbol nin args))
    (fun out first ls => ∀ p,
      Printer.identifyList (p ++ out) first ls =
        shiftStr p (Printer.identifyList out first ls))
    (fun out symbol args => ∀ p,
      Printer.onInfix (p ++ out) symbol args =
        shiftStr p (Printer.onInfix out symbol args))
    ?_ ?_ ?_ ?_ ?_ ?_ ?_ ?_ ?_ ?_ ?_ ?_ ?_ ?_ ?_ out l
  case _ =>
    intro out name value const p
    cases name <;> simp [Printer.identify, shiftRes, String.append_assoc]
  case _ =>
    intro out name symbol nin args ih p
    simp only [Printer.identify]
    exact ih p
  case _ =>
    intro out name symbol nin args hcond out2 hinf ih p
    simp only [Printer.onOperator, if_pos hcond]
    rw [ih p, hinf]
    simp [shiftRes, shiftStr]
  case _ =>
    intro out name symbol nin args hcond e hinf ih p
    simp only [Printer.onOperator, if_pos hcond]
    rw [ih p, hinf]
    simp [shiftRes, shiftStr]
  case _ =>
    intro out name symbol nin args hncond out2 hlist ih p
    simp only [Printer.onOperator, if_neg hncond]
    have hassoc : p ++ out ++ name ++ "(" = p ++ (out ++ name ++ "(") := by
      simp [String.append_assoc]
    rw [hassoc, ih p, hlist]
    simp [shiftRes, shiftStr, String.append_assoc]
  case _ =>
    intro out name symbol nin args hncond e hlist ih p
    simp only [Printer.onOperator, if_neg hncond]
    have hassoc : p ++ out ++ name ++ "(" = p ++ (out ++ name ++ "(") := by
      simp [String.append_assoc]
    rw [hassoc, ih p, hlist]
    simp [shiftRes, shiftStr]
  case _ =>
    intro out first p
    simp [Printer.identifyList, shiftStr]
  case _ =>
    intro out first l rest out3 snd hid ih1 ih2 p
    simp only [dite_eq_ite] at hid ih1
    have hpre : (if first = true then p ++ out else p ++ out ++ ", ") =
        p ++ (if first = true then out else out ++ ", ") := by
      cases first <;> simp [String.append_assoc]
    simp only [Printer.identifyList]
    rw [hpre, ih1 p, hid]
    simpa [shiftRes, shiftStr] using ih2 p
  case _ =>
    intro out first l rest e hid ih1 p
    simp only [dite_eq_ite] at hid ih1
    have hpre : (if first = true then p ++ out else p ++ out ++ ", ") =
        p ++ (if first = true then out else out ++ ", ") := by
      cases first <;> simp [String.append_assoc]
    simp only [Printer.identifyList]
    rw [hpre, ih1 p, hid]
    simp [shiftRes, shiftStr]
  case _ =>
    intro out symbol p
    simp [Printer.onInfix, shiftStr, String.append_assoc]
  case _ =>
    intro out symbol a0 e hid ih p
    have hassoc : p ++ out ++ "(" = p ++ (out ++ "(") := by
      simp [String.append_assoc]
    simp only [Printer.onInfix]
    rw [hassoc, ih p, hid]
    simp [shiftRes, shiftStr]
  case _ =>
    intro out symbol a0 out2 snd hid ih p
    have hassoc : p ++ out ++ "(" = p ++ (out ++ "(") := by
      simp [String.append_assoc]
    simp only [Printer.onInfix]
    rw [hassoc, ih p, hid]
    simp [shiftRes, shiftStr, String.append_assoc]
  case _ =>
    intro out symbol a0 a1 tail e hid ih p
    have hassoc : p ++ out ++ "(" = p ++ (out ++ "(") := by
      simp [String.append_assoc]
    simp only [Printer.onInfix]
    rw [hassoc, ih p, hid]
    simp [shiftRes, shiftStr]
  case _ =>
    intro out symbol a0 a1 tail out2 snd hid0 e hid1 ih0 ih1 p
    have hassoc : p ++ out ++ "(" = p ++ (out ++ "(") := by
      simp [String.append_assoc]
    simp only [Printer.onInfix]
    rw [hassoc, ih0 p, hid0]
    have hassoc2 : p ++ out2 ++ " " ++ symbol ++ " " = p ++ (out2 ++ " " ++ symbol ++ " ") := by
      simp [String.append_assoc]
    simp only [shiftRes, shiftStr, Option.map]
    rw [hassoc2, ih1 p, hid1]
    simp [shiftRes, shiftStr]
  case _ =>
    intro out symbol a0 a1 tail out2 snd hid0 out3 snd2 hid1 ih0 ih1 p
    have hassoc : p ++ out ++ "(" = p ++ (out ++ "(") := by
      simp [String.append_assoc]
    simp only [Printer.onInfix]
    rw [hassoc, ih0 p, hid0]
    have hassoc2 : p ++ out2 ++ " " ++ symbol ++ " " = p ++ (out2 ++ " " ++ symbol ++ " ") := by
      simp [String.append_assoc]
    simp only [shiftRes, shiftStr, Option.map]
    rw [hassoc2, ih1 p, hid1]
    simp [shiftRes, shiftStr, String.append_assoc]

/-- Traversal from an arbitrary starting output equals the traversal from
the empty output with the start prepended throughout. -/
theorem Printer.identify_shift0 (p : String) (l : Literal) :
    Printer.identify p l = shiftRes p (Printer.identify "" l) := by
  have h := Printer.identify_shift "" l p
  rwa [String.append_empty] at h

/-- Joining with a head piece: `commaJoin` of a nonempty list is its head
followed by `", "`-prefixed remaining pieces. -/
theorem commaJoin_cons (r : String) (rs : List String) :
    commaJoin (r :: rs) = r ++ commaJoinTail rs := by
  induction rs generalizing r with
  | nil => simp [commaJoin, commaJoinTail]
  | cons r2 rs ih => simp [commaJoin, commaJoinTail, ih r2, String.append_assoc]

/-- The Printer child loop, entered with `first = false`, appends the
standalone renders of the children each preceded by `", "`. -/
theorem Printer.identifyList_renders_rest (ls : List Literal) :
    ∀ rs : List String, ls.map Printer.render = rs.map Except.ok →
    ∀ out, Printer.identifyList out false ls = .ok (out ++ commaJoinTail rs) := by
  induction ls with
  | nil =>
    intro rs h out
    cases rs with
    | nil => simp [Printer.identifyList, commaJoinTail]
    | cons r rs => simp at h
  | cons l ls ih =>
    intro rs h out
    cases rs with
    | nil => simp at h
    | cons r rs =>
      simp only [List.map_cons, List.cons.injEq] at h
      obtain ⟨hr, hrest⟩ := h
      have hid : ∃ v, Printer.identify "" l = .ok (r, v) := by
        unfold Printer.render at hr
        cases hl : Printer.identify "" l with
        | ok o => cases o with
          | mk o v =>
            rw [hl] at hr
            simp at hr
            exact ⟨v, by rw [hr]⟩
        | error e => rw [hl] at hr; simp at hr
      obtain ⟨v, hid⟩ := hid
      simp only [Printer.identifyList, if_neg (Bool.false_ne_true)]
      rw [Printer.identify_shift0 (out ++ ", ") l, hid]
      simp only [shiftRes, Option.map]
      rw [ih rs hrest]
      simp [commaJoinTail, String.append_assoc]

/-- The Printer child loop on the whole child list appends the standalone
renders of the children joined by `", "`. -/
theorem Printer.identifyList_renders (ls : List Literal) (rs : List String)
    (h : ls.map Printer.render = rs.map Except.ok) (out : String) :
    Printer.identifyList out true ls = .ok (out ++ commaJoin rs) := by
  cases ls with
  | nil =>
    cases rs with
    | nil => simp [Printer.identifyList, commaJoin]
    | cons r rs => simp at h
  | cons l ls =>
    cases rs with
    | nil => simp at h
    | cons r rs =>
      simp only [List.map_cons, List.cons.injEq] at h
      obtain ⟨hr, hrest⟩ := h
      have hid : ∃ v, Printer.identify "" l = .ok (r, v) := by
        unfold Printer.render at hr
        cases hl : Printer.identify "" l with
        | ok o => cases o with
          | mk o v =>
            rw [hl] at hr
            simp at hr
            exact ⟨v, by rw [hr]⟩
        | error e => rw [hl] at hr; simp at hr
      obtain ⟨v, hid⟩ := hid
      simp only [Printer.identifyList, if_true]
      rw [Printer.identify_shift0 out l, hid]
      simp only [shiftRes, Option.map]
      rw [Printer.identifyList_renders_rest ls rs hrest]
      rw [commaJoin_cons, String.append_assoc]

/-- ArgFinder appends, in depth-first left-to-right encounter order, exactly
the Argument occurrences passing the `getconsts or not const` test. -/
theorem ArgFinder.identify_spec (gc : Bool) (args : List Literal) (l : Literal) :
    ArgFinder.identify gc args l =
      (args ++ (argOccurrences l).filter (fun a => gc || ! a.isConst),
       args ++ (argOccurrences l).filter (fun a => gc || ! a.isConst)) := by
  refine ArgFinder.identify.induct gc
    (fun args l => ArgFinder.identify gc args l =
      (args ++ (argOccurrences l).filter (fun a => gc || ! a.isConst),
       args ++ (argOccurrences l).filter (fun a => gc || ! a.isConst)))
    (fun args ls => ArgFinder.identifyList gc args ls =
      args ++ (argOccurrencesList ls).filter (fun a => gc || ! a.isConst))
    ?_ ?_ ?_ ?_ args l
  case _ =>
    intro args name value const
    simp only [ArgFinder.identify, argOccurrences, List.filter]
    cases h : (gc || ! const) <;>
      simp [Literal.isConst, h]
  case _ =>
    intro args name symbol nin children ih
    simp only [ArgFinder.identify, argOccurrences]
    rw [ih]
  case _ =>
    intro args
    simp [ArgFinder.identifyList, argOccurrencesList]
  case _ =>
    intro args l rest ih1 ih2
    simp only [ArgFinder.identifyList, argOccurrencesList]
    rw [ih1] at ih2 ⊢
    simp only [ih2]
    simp [List.filter_append, List.append_assoc]

/-- A well-formed tree (every operator's child count equals its declared
arity) renders without an IndexError. -/
theorem Printer.identify_wf (out : String) (l : Literal) :
    wellFormed l = true → ∃ o v, Printer.identify out l = .ok (o, v) := by
  refine Printer.identify.induct
    (fun out l => wellFormed l = true →
      ∃ o v, Printer.identify out l = .ok (o, v))
    (fun out name symbol nin args =>
      ((args.length == nin) && wellFormedList args) = true →
      ∃ o v, Printer.onOperator out name symbol nin args = .ok (o, v))
    (fun out first ls => wellFormedList ls = true →
      ∃ o, Printer.identifyList out first ls = .ok o)
    (fun out symbol args => args.length = 2 → wellFormedList args = true →
      ∃ o, Printer.onInfix out symbol args = .ok o)
    ?_ ?_ ?_ ?_ ?_ ?_ ?_ ?_ ?_ ?_ ?_ ?_ ?_ ?_ ?_ out l
  case _ =>
    intro out name value const _
    cases name <;> simp [Printer.identify]
  case _ =>
    intro out name symbol nin args ih hwf
    simp only [wellFormed] at hwf
    simp only [Printer.identify]
    exact ih hwf
  case _ =>
    intro out name symbol nin args hcond out2 hinf ih hwf
    simp only [Printer.onOperator, if_pos hcond, hinf]
    exact ⟨out2, none, rfl⟩
  case _ =>
    intro out name symbol nin args hcond e hinf ih hwf
    rw [Bool.and_eq_true, beq_iff_eq] at hwf
    obtain ⟨o, ho⟩ := ih (by rw [hwf.1, hcond.2]) hwf.2
    rw [ho] at hinf
    exact absurd hinf (by simp)
  case _ =>
    intro out name symbol nin args hncond out3 hlist ih hwf
    simp only [Printer.onOperator, if_neg hncond, hlist]
    exact ⟨out3 ++ ")", some (out3 ++ ")"), rfl⟩
  case _ =>
    intro out name symbol nin args hncond e hlist ih hwf
    rw [Bool.and_eq_true] at hwf
    obtain ⟨o, ho⟩ := ih hwf.2
    rw [ho] at hlist
    exact absurd hlist (by simp)
  case _ =>
    intro out first _
    exact ⟨out, by simp [Printer.identifyList]⟩
  case _ =>
    intro out first l rest out3 snd hid ih1 ih2 hwf
    rw [wellFormedList, Bool.and_eq_true] at hwf
    simp only [dite_eq_ite] at hid
    simp only [Printer.identifyList, hid]
    exact ih2 hwf.2
  case _ =>
    intro out first l rest e hid ih1 hwf
    rw [wellFormedList, Bool.and_eq_true] at hwf
    obtain ⟨o, v, hov⟩ := ih1 hwf.1
    rw [hov] at hid
    exact absurd hid (by simp)
  case _ =>
    intro out symbol hlen
    simp at hlen
  case _ =>
    intro out symbol a0 e hid ih hlen
    simp at hlen
  case _ =>
    intro out symbol a0 out2 snd hid ih hlen
    simp at hlen
  case _ =>
    intro out symbol a0 a1 tail e hid ih0 hlen hwf
    rw [wellFormedList, Bool.and_eq_true] at hwf
    obtain ⟨o, v, hov⟩ := ih0 hwf.1
    rw [hov] at hid
    exact absurd hid (by simp)
  case _ =>
    intro out symbol a0 a1 tail out2 snd hid0 e hid1 ih0 ih1 hlen hwf
    rw [wellFormedList, Bool.and_eq_true] at hwf
    rw [wellFormedList, Bool.and_eq_true] at hwf
    obtain ⟨o, v, hov⟩ := ih1 hwf.2.1
    rw [hov] at hid1
    exact absurd hid1 (by simp)
  case _ =>
    intro out symbol a0 a1 tail out2 snd hid0 out3 snd2 hid1 ih0 ih1 hlen hwf
    simp only [Printer.onInfix, hid0, hid1]
    exact ⟨out3 ++ ")", rfl⟩

/-- The Printer traversal leaves every node exactly as it found it: the
node threaded through the visit comes back unchanged. -/
theorem PrinterT.printer_preserves_nodes (out : String) (l : Literal) :
    (PrinterT.identify out l).2 = l := by
  refine PrinterT.identify.induct
    (fun out l => (PrinterT.identify out l).2 = l)
    (fun out name symbol nin args => (PrinterT.onOperator out name symbol nin args).2 = args)
    (fun out first ls => (PrinterT.identifyList out first ls).2 = ls)
    (fun out symbol args => (PrinterT.onInfix out symbol args).2 = args)
    ?_ ?_ ?_ ?_ ?_ ?_ ?_ ?_ ?_ ?_ ?_ ?_ ?_ ?_ ?_ out l
  case _ =>
    intro out name value const
    cases name <;> simp [PrinterT.identify]
  case _ =>
    intro out name symbol nin args ih
    simp [PrinterT.identify, ih]
  case _ =>
    intro out name symbol nin args hcond out2 args2 h ih
    rw [h] at ih
    simp only [PrinterT.onOperator, if_pos hcond, h]
    exact ih
  case _ =>
    intro out name symbol nin args hcond e args2 h ih
    rw [h] at ih
    simp only [PrinterT.onOperator, if_pos hcond, h]
    exact ih
  case _ =>
    intro out name symbol nin args hncond out2 args2 h ih
    rw [h] at ih
    simp only [PrinterT.onOperator, if_neg hncond, h]
    exact ih
  case _ =>
    intro out name symbol nin args hncond e args2 h ih
    rw [h] at ih
    simp only [PrinterT.onOperator, if_neg hncond, h]
    exact ih
  case _ =>
    intro out first
    simp [PrinterT.identifyList]
  case _ =>
    intro out first l rest out3 snd l2 h1 r rest2 h2 ih1 ih2
    simp only [dite_eq_ite] at h1 ih1
    rw [h1] at ih1
    rw [h2] at ih2
    simp only [PrinterT.identifyList, h1, h2]
    simp_all
  case _ =>
    intro out first l rest e l2 h1 ih1
    simp only [dite_eq_ite] at h1 ih1
    rw [h1] at ih1
    simp only [PrinterT.identifyList, h1]
    simp_all
  case _ =>
    intro out symbol
    simp [PrinterT.onInfix]
  case _ =>
    intro out symbol a0 e a0' h ih
    rw [h] at ih
    simp only [PrinterT.onInfix, h]
    simp_all
  case _ =>
    intro out symbol a0 out2 snd a0' h ih
    rw [h] at ih
    simp only [PrinterT.onInfix, h]
    simp_all
  case _ =>
    intro out symbol a0 a1 tail e a0' h ih
    rw [h] at ih
    simp only [PrinterT.onInfix, h]
    simp_all
  case _ =>
    intro out symbol a0 a1 tail out2 snd a0' h0 e a1' h1 ih0 ih1
    rw [h0] at ih0
    rw [h1] at ih1
    simp only [PrinterT.onInfix, h0, h1]
    simp_all
  case _ =>
    intro out symbol a0 a1 tail out2 snd a0' h0 out3 snd2 a1' h1 ih0 ih1
    rw [h0] at ih0
    rw [h1] at ih1
    simp only [PrinterT.onInfix, h0, h1]
    simp_all

/-- The ArgFinder traversal leaves every node exactly as it found it. -/
theorem ArgFinderT.argfinder_preserves_nodes (gc : Bool) (args : List Literal) (l : Literal) :
    (ArgFinderT.identify gc args l).2 = l := by
  refine ArgFinderT.identify.induct gc
    (fun args l => (ArgFinderT.identify gc args l).2 = l)
    (fun args ls => (ArgFinderT.identifyList gc args ls).2 = ls)
    ?_ ?_ ?_ ?_ args l
  case _ =>
    intro args name value const
    simp [ArgFinderT.identify]
  case _ =>
    intro args name symbol nin children ih
    simp [ArgFinderT.identify, ih]
  case _ =>
    intro args
    simp [ArgFinderT.identifyList]
  case _ =>
    intro args l rest r1 l2 h1 r2 rest2 h2 ih1 ih2
    rw [h1] at ih1
    rw [h2] at ih2
    simp only [ArgFinderT.identifyList, h1, h2]
    simp_all

/-- The node-threaded Printer computes exactly what the Printer computes. -/
theorem PrinterT.printer_agrees (out : String) (l : Literal) :
    (PrinterT.identify out l).1 = Printer.identify out l := by
  refine PrinterT.identify.induct
    (fun out l => (PrinterT.identify out l).1 = Printer.identify out l)
    (fun out name symbol nin args =>
      (PrinterT.onOperator out name symbol nin args).1 =
        Printer.onOperator out name symbol nin args)
    (fun out first ls =>
      (PrinterT.identifyList out first ls).1 = Printer.identifyList out first ls)
    (fun out symbol args =>
      (PrinterT.onInfix out symbol args).1 = Printer.onInfix out symbol args)
    ?_ ?_ ?_ ?_ ?_ ?_ ?_ ?_ ?_ ?_ ?_ ?_ ?_ ?_ ?_ out l
  case _ =>
    intro out name value const
    cases name <;> simp [PrinterT.identify, Printer.identify]
  case _ =>
    intro out name symbol nin args ih
    simp [PrinterT.identify, Printer.identify, ih]
  case _ =>
    intro out name symbol nin args hcond out2 args2 h ih
    have ih' : Printer.onInfix out symbol args = .ok out2 := by rw [← ih, h]
    simp only [PrinterT.onOperator, Printer.onOperator, if_pos hcond, h, ih']
  case _ =>
    intro out name symbol nin args hcond e args2 h ih
    have ih' : Printer.onInfix out symbol args = .error e := by rw [← ih, h]
    simp only [PrinterT.onOperator, Printer.onOperator, if_pos hcond, h, ih']
  case _ =>
    intro out name symbol nin args hncond out2 args2 h ih
    have ih' : Printer.identifyList (out ++ name ++ "(") true args = .ok out2 := by
      rw [← ih, h]
    simp only [PrinterT.onOperator, Printer.onOperator, if_neg hncond, h, ih']
  case _ =>
    intro out name symbol nin args hncond e args2 h ih
    have ih' : Printer.identifyList (out ++ name ++ "(") true args = .error e := by
      rw [← ih, h]
    simp only [PrinterT.onOperator, Printer.onOperator, if_neg hncond, h, ih']
  case _ =>
    intro out first
    simp [PrinterT.identifyList, Printer.identifyList]
  case _ =>
    intro out first l rest out3 snd l2 h1 r rest2 h2 ih1 ih2
    simp only [dite_eq_ite] at h1 ih1
    have e1 : Printer.identify (if first = true then out else out ++ ", ") l =
        .ok (out3, snd) := by rw [← ih1, h1]
    have e2 : Printer.identifyList out3 false rest = r := by rw [← ih2, h2]
    simp only [PrinterT.identifyList, Printer.identifyList, h1, h2, e1, e2]
  case _ =>
    intro out first l rest e l2 h1 ih1
    simp only [dite_eq_ite] at h1 ih1
    have e1 : Printer.identify (if first = true then out else out ++ ", ") l =
        .error e := by rw [← ih1, h1]
    simp only [PrinterT.identifyList, Printer.identifyList, h1, e1]
  case _ =>
    intro out symbol
    simp [PrinterT.onInfix, Printer.onInfix]
  case _ =>
    intro out symbol a0 e a0' h ih
    have e1 : Printer.identify (out ++ "(") a0 = .error e := by rw [← ih, h]
    simp only [PrinterT.onInfix, Printer.onInfix, h, e1]
  case _ =>
    intro out symbol a0 out2 snd a0' h ih
    have e1 : Printer.identify (out ++ "(") a0 = .ok (out2, snd) := by rw [← ih, h]
    simp only [PrinterT.onInfix, Printer.onInfix, h, e1]
  case _ =>
    intro out symbol a0 a1 tail e a0' h ih
    have e1 : Printer.identify (out ++ "(") a0 = .error e := by rw [← ih, h]
    simp only [PrinterT.onInfix, Printer.onInfix, h, e1]
  case _ =>
    intro out symbol a0 a1 tail out2 snd a0' h0 e a1' h1 ih0 ih1
    have e0 : Printer.identify (out ++ "(") a0 = .ok (out2, snd) := by rw [← ih0, h0]
    have e1 : Printer.identify (out2 ++ " " ++ symbol ++ " ") a1 = .error e := by
      rw [← ih1, h1]
    simp only [PrinterT.onInfix, Printer.onInfix, h0, h1, e0, e1]
  case _ =>
    intro out symbol a0 a1 tail out2 snd a0' h0 out3 snd2 a1' h1 ih0 ih1
    have e0 : Printer.identify (out ++ "(") a0 = .ok (out2, snd) := by rw [← ih0, h0]
    have e1 : Printer.identify (out2 ++ " " ++ symbol ++ " ") a1 = .ok (out3, snd2) := by
      rw [← ih1, h1]
    simp only [PrinterT.onInfix, Printer.onInfix, h0, h1, e0, e1]

/-- The node-threaded ArgFinder computes exactly what ArgFinder computes. -/
theorem ArgFinderT.argfinder_agrees (gc : Bool) (args : List Literal) (l : Literal) :
    (ArgFinderT.identify gc args l).1 = ArgFinder.identify gc args l := by
  refine ArgFinderT.identify.induct gc
    (fun args l => (ArgFinderT.identify gc args l).1 = ArgFinder.identify gc args l)
    (fun args ls =>
      (ArgFinderT.identifyList gc args ls).1 = ArgFinder.identifyList gc args ls)
    ?_ ?_ ?_ ?_ args l
  case _ =>
    intro args name value const
    simp [ArgFinderT.identify, ArgFinder.identify]
  case _ =>
    intro args name symbol nin children ih
    simp [ArgFinderT.identify, ArgFinder.identify, ih]
  case _ =>
    intro args
    simp [ArgFinderT.identifyList, ArgFinder.identifyList]
  case _ =>
    intro args l rest r1 l2 h1 r2 rest2 h2 ih1 ih2
    have e1 : ArgFinder.identify gc args l = r1 := by rw [← ih1, h1]
    have e2 : ArgFinder.identifyList gc r1.1 rest = r2 := by rw [← ih2, h2]
    simp only [ArgFinderT.identifyList, ArgFinder.identifyList, h1, h2, e1, e2]

/-- A successful full render comes from a successful traversal whose final
output is the rendered string. -/
theorem Printer.render_ok_identify (l : Literal) (r : String)
    (h : Printer.render l = .ok r) : ∃ v, Printer.identify "" l = .ok (r, v) := by
  unfold Printer.render at h
  cases hl : Printer.identify "" l with
  | ok o =>
    cases o with
    | mk o v =>
      rw [hl] at h
      simp at h
      exact ⟨v, by rw [h]⟩
  | error e => rw [hl] at h; simp at h

/-- C2: a binary operator (`nin = 2`) whose name differs from its symbol is
rendered in infix form: `"("`, the first child's rendering, a space, the
symbol, a space, the second child's rendering, `")"`; the result begins with
`"("` and ends with `")"`, the enclosing parentheses being emitted
unconditionally. -/
theorem c2_infix_render (name symbol : String) (a0 a1 : Literal)
    (rest : List Literal) (r0 r1 : String)
    (hns : name ≠ symbol)
    (h0 : Printer.render a0 = .ok r0) (h1 : Printer.render a1 = .ok r1) :
    Printer.render (.Operator name symbol 2 (a0 :: a1 :: rest)) =
      .ok ("(" ++ r0 ++ " " ++ symbol ++ " " ++ r1 ++ ")") ∧
    (∃ t, "(" ++ r0 ++ " " ++ symbol ++ " " ++ r1 ++ ")" = "(" ++ t) ∧
    (∃ t, "(" ++ r0 ++ " " ++ symbol ++ " " ++ r1 ++ ")" = t ++ ")") := by
  obtain ⟨v0, h0'⟩ := Printer.render_ok_identify a0 r0 h0
  obtain ⟨v1, h1'⟩ := Printer.render_ok_identify a1 r1 h1
  have hcond : name ≠ symbol ∧ (2 : Nat) = 2 := ⟨hns, rfl⟩
  refine ⟨?_, ⟨r0 ++ " " ++ symbol ++ " " ++ r1 ++ ")", by
    simp [String.append_assoc]⟩, ⟨"(" ++ r0 ++ " " ++ symbol ++ " " ++ r1, rfl⟩⟩
  simp only [Printer.render, Printer.identify, Printer.onOperator, if_pos hcond,
    Printer.onInfix]
  rw [Printer.identify_shift0 ("" ++ "(") a0, h0']
  simp only [shiftRes, Option.map]
  rw [Printer.identify_shift0 ("" ++ "(" ++ r0 ++ " " ++ symbol ++ " ") a1, h1']
  simp only [shiftRes, Option.map]
  simp [String.append_assoc, hns]

/-- C3: an operator that is not routed to the infix branch (arity other
than 2, or name equal to symbol) is rendered in function-call form: the
name, `"("`, the children's renderings joined by `", "`, and `")"`; with
zero children this is the name followed by `"()"`. -/
theorem c3_call_render (name symbol : String) (nin : Nat) (args : List Literal)
    (rs : List String) (h : name = symbol ∨ nin ≠ 2)
    (hrs : args.map Printer.render = rs.map Except.ok) :
    Printer.render (.Operator name symbol nin args) =
      .ok (name ++ "(" ++ commaJoin rs ++ ")") ∧
    (args = [] → Printer.render (.Operator name symbol nin args) = .ok (name ++ "()")) := by
  have hncond : ¬(name ≠ symbol ∧ nin = 2) := by
    rcases h with h | h
    · exact fun hc => hc.1 h
    · exact fun hc => h hc.2
  have hmain : Printer.render (.Operator name symbol nin args) =
      .ok (name ++ "(" ++ commaJoin rs ++ ")") := by
    simp only [Printer.render, Printer.identify, Printer.onOperator, if_neg hncond]
    rw [Printer.identifyList_renders args rs hrs ("" ++ name ++ "(")]
    simp [String.append_assoc]
  refine ⟨hmain, fun he => ?_⟩
  subst he
  have hrs0 : rs = [] := by
    cases rs with
    | nil => rfl
    | cons r rs => simp at hrs
  subst hrs0
  rw [hmain]
  have hpar : ("(" : String) ++ ")" = "()" := rfl
  simp [commaJoin, String.append_assoc, hpar]

/-- C4: an Argument leaf is rendered as its name when it has one, and as
the string form of its numeric value otherwise. -/
theorem c4_argument_render :
    (∀ n : String, ∀ v : Int, ∀ c : Bool,
      Printer.render (.Argument (some n) v c) = .ok n) ∧
    (∀ v : Int, ∀ c : Bool,
      Printer.render (.Argument none v c) = .ok (toString v)) := by
  constructor <;> intros <;> simp [Printer.render, Printer.identify]

/-- C10: the Printer's "has a name" test is `arg.name is None`, not an
emptiness test: an Argument named by any string — the empty string `""`
included — has that string emitted and its value never printed; only an
Argument with no name (`None`) has its value printed. -/
theorem c10_none_test :
    (∀ n : String, ∀ v : Int, ∀ c : Bool,
      Printer.render (.Argument (some n) v c) = .ok n) ∧
    (∀ v : Int, ∀ c : Bool,
      Printer.render (.Argument (some "") v c) = .ok "") ∧
    (∀ v : Int, ∀ c : Bool,
      Printer.render (.Argument none v c) = .ok (toString v)) := by
  refine ⟨fun n v c => ?_, fun v c => ?_, fun v c => ?_⟩ <;>
    simp [Printer.render, Printer.identify]

/-- C5: ArgFinder traverses depth first, left to right, and collects the
Argument-leaf occurrences in encounter order without deduplication, keeping
an occurrence exactly when `getconsts` is true or its const flag is false;
with `getconsts = true` the result has one entry per reachable occurrence,
and with `getconsts = false` it is the same sequence with the const
occurrences removed. -/
theorem c5_argfinder_occurrences (gc : Bool) (T : Literal) :
    ArgFinder.find gc T = (argOccurrences T).filter (fun a => gc || ! a.isConst) ∧
    (ArgFinder.find true T).length = (argOccurrences T).length ∧
    ArgFinder.find false T = (argOccurrences T).filter (fun a => ! a.isConst) := by
  refine ⟨?_, ?_, ?_⟩
  · unfold ArgFinder.find
    rw [ArgFinder.identify_spec gc [] T]
    simp
  · unfold ArgFinder.find
    rw [ArgFinder.identify_spec true [] T]
    simp
  · unfold ArgFinder.find
    rw [ArgFinder.identify_spec false [] T]
    simp

/-- C6: rendering is deterministic: a full render (reset, then traversal)
of an unchanged tree gives the same result whatever the visitor's prior
output state, so two successive full renders agree byte for byte. -/
theorem c6_render_deterministic (T : Literal) (s o : String) (v : Option String)
    (h : Printer.identify (Printer.reset s) T = .ok (o, v)) :
    Printer.identify (Printer.reset o) T = .ok (o, v) ∧
    ∀ s' : String, Printer.identify (Printer.reset s') T =
      Printer.identify (Printer.reset s) T :=
  ⟨h, fun _ => rfl⟩

/-- Witness for C6 at a concrete tree and starting states. -/
theorem c6_witness :
    Printer.identify (Printer.reset "junk") (.Argument (some "x") 1 false) =
      .ok ("x", some "x") ∧
    Printer.identify (Printer.reset "x") (.Argument (some "x") 1 false) =
      .ok ("x", some "x") := by
  have h : Printer.identify (Printer.reset "junk") (.Argument (some "x") 1 false) =
      .ok ("x", some "x") := by
    simp [Printer.reset, Printer.identify]
  exact ⟨h, (c6_render_deterministic _ "junk" "x" (some "x") h).1⟩

/-- C7: `reset()` empties the accumulator (`output = ""`, `args = []`), and
a reset visitor traverses exactly as a freshly constructed one: nothing of
an earlier traversal leaks into the new result. -/
theorem c7_reset_fresh :
    (∀ s : String, Printer.reset s = "") ∧
    (∀ acc : List Literal, ArgFinder.reset acc = []) ∧
    (∀ s : String, ∀ T : Literal,
      Printer.identify (Printer.reset s) T = Printer.identify "" T) ∧
    (∀ gc : Bool, ∀ acc : List Literal, ∀ T : Literal,
      ArgFinder.identify gc (ArgFinder.reset acc) T = ArgFinder.identify gc [] T) :=
  ⟨fun _ => rfl, fun _ => rfl, fun _ _ => rfl, fun _ _ _ => rfl⟩

/-- C8: neither visitor mutates any node: threading the node graph through
either traversal as part of the mutable state returns every node — all its
fields and children included — exactly as it was before the traversal. -/
theorem c8_no_mutation :
    (∀ out : String, ∀ T : Literal, (PrinterT.identify out T).2 = T) ∧
    (∀ gc : Bool, ∀ acc : List Literal, ∀ T : Literal,
      (ArgFinderT.identify gc acc T).2 = T) :=
  ⟨PrinterT.printer_preserves_nodes, ArgFinderT.argfinder_preserves_nodes⟩

/-- C9: the Printer raises nothing itself on a well-formed tree; the infix
branch's child accesses are in bounds whenever the operator routed there
has at least two children; and an operator with `nin = 2` and
`name ≠ symbol` but fewer than two children hits an out-of-range child
access in the infix branch, which propagates as the error. -/
theorem c9_infix_bounds :
    (∀ T : Literal, wellFormed T = true → ∃ s, Printer.render T = .ok s) ∧
    (∀ out symbol : String, ∀ a0 a1 : Literal, ∀ tail : List Literal,
      ∀ o2 : String, ∀ v2 : Option String, ∀ o3 : String, ∀ v3 : Option String,
      Printer.identify (out ++ "(") a0 = .ok (o2, v2) →
      Printer.identify (o2 ++ " " ++ symbol ++ " ") a1 = .ok (o3, v3) →
      Printer.onInfix out symbol (a0 :: a1 :: tail) = .ok (o3 ++ ")")) ∧
    (∀ name symbol : String, ∀ args : List Literal,
      name ≠ symbol → args.length < 2 →
      ∃ e, Printer.render (.Operator name symbol 2 args) = .error e) := by
  refine ⟨?_, ?_, ?_⟩
  · intro T h
    obtain ⟨o, v, ho⟩ := Printer.identify_wf "" T h
    exact ⟨o, by unfold Printer.render; rw [ho]⟩
  · intro out symbol a0 a1 tail o2 v2 o3 v3 h1 h2
    simp only [Printer.onInfix, h1, h2]
  · intro name symbol args hns hlen
    have hcond : name ≠ symbol ∧ (2 : Nat) = 2 := ⟨hns, rfl⟩
    cases args with
    | nil =>
      refine ⟨"" ++ "(", ?_⟩
      simp only [Printer.render, Printer.identify, Printer.onOperator,
        Printer.onInfix]
      simp [hns]
    | cons a0 rest =>
      cases rest with
      | nil =>
        cases ha : Printer.identify ("" ++ "(") a0 with
        | ok p =>
          cases p with
          | mk o2 v2 =>
            refine ⟨o2 ++ " " ++ symbol ++ " ", ?_⟩
            simp only [Printer.render, Printer.identify, Printer.onOperator,
              Printer.onInfix, ha]
            simp [hns]
        | error e =>
          refine ⟨e, ?_⟩
          simp only [Printer.render, Printer.identify, Printer.onOperator,
            Printer.onInfix, ha]
          simp [hns]
      | cons a1 t =>
        simp only [List.length_cons] at hlen
        exact absurd hlen (by omega)

/-- Witness for C9: a well-formed one-child function-call tree renders, the
infix branch succeeds on two in-bounds children, and a childless infix
operator errors. -/
theorem c9_witness :
    wellFormed (.Operator "sin" "sin" 1 [.Argument (some "t") 5 false]) = true ∧
    (∃ s, Printer.render (.Operator "sin" "sin" 1 [.Argument (some "t") 5 false]) =
      .ok s) ∧
    Printer.identify ("" ++ "(") (.Argument (some "x") 1 false) =
      .ok ("(x", some "(x") ∧
    Printer.identify ("(x" ++ " " ++ "+" ++ " ") (.Argument (some "y") 2 false) =
      .ok ("(x + y", some "(x + y") ∧
    Printer.onInfix "" "+"
      [.Argument (some "x") 1 false, .Argument (some "y") 2 false] =
      .ok ("(x + y" ++ ")") ∧
    ("add" : String) ≠ "+" ∧ ([] : List Literal).length < 2 ∧
    (∃ e, Printer.render (.Operator "add" "+" 2 []) = .error e) := by
  have hwf : wellFormed (.Operator "sin" "sin" 1 [.Argument (some "t") 5 false]) = true := by
    simp [wellFormed, wellFormedList]
  have hx : Printer.identify ("" ++ "(") (.Argument (some "x") 1 false) =
      .ok ("(x", some "(x") := by
    simp [Printer.identify]
  have hy : Printer.identify ("(x" ++ " " ++ "+" ++ " ") (.Argument (some "y") 2 false) =
      .ok ("(x + y", some "(x + y") := by
    simp [Printer.identify]
  have hns : ("add" : String) ≠ "+" := by decide
  exact ⟨hwf, c9_infix_bounds.1 _ hwf, hx, hy,
    c9_infix_bounds.2.1 "" "+" _ _ [] "(x" (some "(x") "(x + y" (some "(x + y") hx hy,
    hns, by decide, c9_infix_bounds.2.2 "add" "+" [] hns (by decide)⟩

/-- C1 fails on the code as stated: on an operator rendered through the
infix branch, `Printer.onOperator` executes a bare `return`, so the value
returned by the root's `identify` call is `None`, not the output string
`"(x + y)"` that the traversal accumulated. -/
theorem c1_counterexample :
    Printer.identify "" (.Operator "add" "+" 2
      [.Argument (some "x") 1 false, .Argument (some "y") 2 false]) =
      .ok ("(x + y)", none) ∧
    Printer.identify "" (.Operator "add" "+" 2
      [.Argument (some "x") 1 false, .Argument (some "y") 2 false]) ≠
      .ok ("(x + y)", some "(x + y)") := by
  have h : Printer.identify "" (.Operator "add" "+" 2
      [.Argument (some "x") 1 false, .Argument (some "y") 2 false]) =
      .ok ("(x + y)", none) := by
    simp [Printer.identify, Printer.onOperator, Printer.onInfix]
  refine ⟨h, ?_⟩
  rw [h]
  simp

/-- C1 amended: `Printer.onArgument` and the function-call branch of
`Printer.onOperator` return the current output string, and both ArgFinder
operations return the current argument list, so those traversal outcomes
can be read from the root call's return value; but an operator rendered
through the infix branch makes `Printer.onOperator` return `None`, so in
that one case the outcome must be read from the printer's `output`
attribute instead. -/
theorem c1_amended_returns :
    (∀ out : String, ∀ name : Option String, ∀ v : Int, ∀ c : Bool,
      ∃ o, Printer.identify out (.Argument name v c) = .ok (o, some o)) ∧
    (∀ out name symbol : String, ∀ nin : Nat, ∀ args : List Literal,
      ∀ o : String, ∀ r : Option String,
      ¬(name ≠ symbol ∧ nin = 2) →
      Printer.onOperator out name symbol nin args = .ok (o, r) → r = some o) ∧
    (∀ out name symbol : String, ∀ nin : Nat, ∀ args : List Literal,
      ∀ o : String, ∀ r : Option String,
      name ≠ symbol → nin = 2 →
      Printer.onOperator out name symbol nin args = .ok (o, r) → r = none) ∧
    (∀ gc : Bool, ∀ acc : List Literal, ∀ T : Literal,
      (ArgFinder.identify gc acc T).2 = (ArgFinder.identify gc acc T).1) := by
  refine ⟨?_, ?_, ?_, ?_⟩
  · intro out name v c
    cases name with
    | none => exact ⟨out ++ toString v, by simp [Printer.identify]⟩
    | some n => exact ⟨out ++ n, by simp [Printer.identify]⟩
  · intro out name symbol nin args o r hn hok
    simp only [Printer.onOperator, if_neg hn] at hok
    cases hres : Printer.identifyList (out ++ name ++ "(") true args with
    | ok o3 =>
      rw [hres] at hok
      simp at hok
      rw [← hok.2, hok.1]
    | error e => rw [hres] at hok; simp at hok
  · intro out name symbol nin args o r hns hnin hok
    simp only [Printer.onOperator, if_pos (And.intro hns hnin)] at hok
    cases hres : Printer.onInfix out symbol args with
    | ok o2 =>
      rw [hres] at hok
      simp at hok
      exact hok.2.symm
    | error e => rw [hres] at hok; simp at hok
  · intro gc acc T
    cases T <;> simp [ArgFinder.identify]

/-- Witness for C1's amended statement at concrete nodes: a function-call
operator whose return value is its output, and an infix operator whose
return value is `None`. -/
theorem c1_witness :
    (∃ o, Printer.identify "junk" (.Argument (some "x") 1 false) = .ok (o, some o)) ∧
    ¬(("sin" : String) ≠ "sin" ∧ (1 : Nat) = 2) ∧
    Printer.onOperator "" "sin" "sin" 1 [.Argument (some "t") 5 false] =
      .ok ("sin(t)", some "sin(t)") ∧
    (some "sin(t)" : Option String) = some "sin(t)" ∧
    ("add" : String) ≠ "+" ∧
    Printer.onOperator "" "add" "+" 2
      [.Argument (some "x") 1 false, .Argument (some "y") 2 false] =
      .ok ("(x + y)", none) ∧
    (none : Option String) = none ∧
    (ArgFinder.identify true [] (.Argument (some "x") 1 false)).2 =
      (ArgFinder.identify true [] (.Argument (some "x") 1 false)).1 := by
  have hnot : ¬(("sin" : String) ≠ "sin" ∧ (1 : Nat) = 2) := by decide
  have hns : ("add" : String) ≠ "+" := by decide
  have h2 : Printer.onOperator "" "sin" "sin" 1 [.Argument (some "t") 5 false] =
      .ok ("sin(t)", some "sin(t)") := by
    simp [Printer.onOperator, Printer.identifyList, Printer.identify]
  have h3 : Printer.onOperator "" "add" "+" 2
      [.Argument (some "x") 1 false, .Argument (some "y") 2 false] =
      .ok ("(x + y)", none) := by
    simp [Printer.onOperator, Printer.onInfix, Printer.identify]
  exact ⟨c1_amended_returns.1 "junk" (some "x") 1 false, hnot, h2,
    c1_amended_returns.2.1 "" "sin" "sin" 1 _ "sin(t)" (some "sin(t)") hnot h2,
    hns, h3,
    c1_amended_returns.2.2.1 "" "add" "+" 2 _ "(x + y)" none hns rfl h3,
    c1_amended_returns.2.2.2 true [] _⟩

/-- Witness for C2 at the spec's first concrete scenario,
`add(x, y)` with symbol `+`, rendering as `"(x + y)"`. -/
theorem c2_witness :
    ("add" : String) ≠ "+" ∧
    Printer.render (.Argument (some "x") 1 false) = .ok "x" ∧
    Printer.render (.Argument (some "y") 2 false) = .ok "y" ∧
    Printer.render (.Operator "add" "+" 2
      [.Argument (some "x") 1 false, .Argument (some "y") 2 false]) =
      .ok ("(" ++ "x" ++ " " ++ "+" ++ " " ++ "y" ++ ")") := by
  have hns : ("add" : String) ≠ "+" := by decide
  have h0 : Printer.render (.Argument (some "x") 1 false) = .ok "x" := by
    simp [Printer.render, Printer.identify]
  have h1 : Printer.render (.Argument (some "y") 2 false) = .ok "y" := by
    simp [Printer.render, Printer.identify]
  exact ⟨hns, h0, h1, (c2_infix_render "add" "+" _ _ [] "x" "y" hns h0 h1).1⟩

/-- Witness for C3 at a one-child function-call operator `sin(t)`. -/
theorem c3_witness :
    (("sin" : String) = "sin" ∨ (1 : Nat) ≠ 2) ∧
    [.Argument (some "t") 5 false].map Printer.render = ["t"].map Except.ok ∧
    Printer.render (.Operator "sin" "sin" 1 [.Argument (some "t") 5 false]) =
      .ok ("sin" ++ "(" ++ commaJoin ["t"] ++ ")") := by
  have hm : [Literal.Argument (some "t") 5 false].map Printer.render =
      ["t"].map Except.ok := by
    simp [Printer.render, Printer.identify]
  exact ⟨Or.inl rfl, hm,
    (c3_call_render "sin" "sin" 1 _ ["t"] (Or.inl rfl) hm).1⟩

/-- The spec's concrete scenario 3: a const and a free argument under one
operator; `getconsts = false` drops the const one, `getconsts = true`
keeps both, in child order. -/
theorem scenario_argfinder :
    ArgFinder.find false (.Operator "add" "+" 2
      [.Argument (some "a") 1 true, .Argument (some "b") 2 false]) =
      [.Argument (some "b") 2 false] ∧
    ArgFinder.find true (.Operator "add" "+" 2
      [.Argument (some "a") 1 true, .Argument (some "b") 2 false]) =
      [.Argument (some "a") 1 true, .Argument (some "b") 2 false] := by
  constructor <;> simp [ArgFinder.find, ArgFinder.identify, ArgFinder.identifyList]

end DiffpySrfit
